import Mathlib

/-!
Verification of the ESPHome device-integration layer
(`homeassistant/components/esphome/__init__.py`).

The Python module is shallowly embedded: dictionaries become association
lists, sets become lists read up to membership, callbacks become lists of
identifiers, and each handler becomes a pure function from its inputs and
the mutable entry data to the updated entry data together with the
observable actions it performs (callbacks run, services registered or
removed, events fired, entities notified).
-/

namespace Esphome

/-- Per-entity static descriptive metadata (`aioesphomeapi.EntityInfo`):
an integer key identifying the entity plus its descriptor content,
abstracted as a name and an opaque payload. -/
structure EntityInfo where
  key : Nat
  name : String
  payload : Nat
deriving DecidableEq

/-- A cached per-entity state object (`aioesphomeapi.EntityState`).
`stype` models the Python runtime type `type(entity_state)` of the state
object (the state kind), `key` the entity key, `value` the payload. -/
structure EntityState where
  stype : Nat
  key : Nat
  value : Nat
deriving DecidableEq

/-- Device metadata (`aioesphomeapi.DeviceInfo`), restricted to the fields
the verified handlers read. -/
structure DeviceInfo where
  name : String
  mac_address : String
  has_deep_sleep : Bool
deriving DecidableEq

/-- An argument of a device-exposed user service
(`aioesphomeapi.UserServiceArg`). -/
structure UserServiceArg where
  name : String
  type : Nat
deriving DecidableEq

/-- A device-exposed user service (`aioesphomeapi.UserService`). -/
structure UserService where
  name : String
  key : Nat
  args : List UserServiceArg
deriving DecidableEq

/-- The mutable per-device runtime data (`RuntimeEntryData`), restricted to
the fields the verified handlers touch. `state` is the nested dictionary
state-type -> (entity key -> latest state); `stale_state` is the set of
(state-type, key) pairs whose cached value is no longer trusted;
`disconnect_callbacks` holds identifiers of the registered cleanup
callbacks; `services` is the map service key -> registered service. -/
structure EntryData where
  disconnect_callbacks : List Nat
  available : Bool
  stale_state : List (Nat × Nat)
  state : List (Nat × List (Nat × EntityState))
  services : List (Nat × UserService)
deriving DecidableEq

/-! ### C3: `EsphomeEntity.available` -/

/-- `EsphomeEntity.available`: a deep-sleep device is always shown as
available; otherwise the per-device availability flag is returned. -/
def EsphomeEntity.available (device_info : DeviceInfo) (entryAvailable : Bool) : Bool :=
  if device_info.has_deep_sleep then
    true
  else
    entryAvailable

/-! ### C6: `on_connect_error` -/

/-- The exception passed to `on_connect_error`; the three named
constructors are the `aioesphomeapi` error classes the handler tests with
`isinstance`, `apiConnectionError` is any other `APIConnectionError`, and
`other` is any further exception. -/
inductive ConnectError where
  | requiresEncryptionAPIError
  | invalidEncryptionKeyAPIError
  | invalidAuthAPIError
  | apiConnectionError
  | other (code : Nat)
deriving DecidableEq

/-- `on_connect_error`: returns whether `entry.async_start_reauth` is
called; for every other error the handler body does nothing. -/
def on_connect_error (err : ConnectError) : Bool :=
  match err with
  | .requiresEncryptionAPIError => true
  | .invalidEncryptionKeyAPIError => true
  | .invalidAuthAPIError => true
  | .apiConnectionError => false
  | .other _ => false

/-! ### C8: unique-id migration step of `on_connect` -/

/-- The unique-id migration step of `on_connect`: compares the config
entry unique id against the formatted MAC address of the freshly fetched
device info and issues one `async_update_entry` call when they differ.
Returns the persisted unique id afterwards and the number of update calls
issued. `format_mac` is the host helper, kept abstract. -/
def migrate_unique_id (format_mac : String → String) (entryUniqueId : Option String)
    (mac : String) : Option String × Nat :=
  if entryUniqueId ≠ some (format_mac mac) then
    (some (format_mac mac), 1)
  else
    (entryUniqueId, 0)

/-! ### C1: `async_list_entities` (platform entity reconciliation) -/

/-- Lookup in an association list modelling a Python dict keyed by entity
key (`info.key in old_infos` / `old_infos[key]`). -/
def lookupInfo (l : List (Nat × EntityInfo)) (k : Nat) : Option EntityInfo :=
  (l.find? (fun p => p.1 == k)).map Prod.snd

/-- `dict.pop(key)` on the association list: removes the entry with the
given key. -/
def popInfo (l : List (Nat × EntityInfo)) (k : Nat) : List (Nat × EntityInfo) :=
  l.eraseP (fun p => p.1 == k)

/-- The loop state of `async_list_entities`: `old_infos` is the mutable
dict the loop pops matched keys from, `new_infos` the dict being built
(insertion order preserved), `add_entities` the list of freshly
constructed host entity objects, identified by their static info. -/
structure ListEntitiesState where
  old_infos : List (Nat × EntityInfo)
  new_infos : List (Nat × EntityInfo)
  add_entities : List EntityInfo
deriving DecidableEq

/-- One iteration of the `for info in infos` loop of `async_list_entities`:
a key already in `old_infos` is popped from it (no new entity object),
an unknown key constructs a new entity object; either way
`new_infos[info.key] = info`. -/
def listEntitiesStep (s : ListEntitiesState) (info : EntityInfo) : ListEntitiesState :=
  if (lookupInfo s.old_infos info.key).isSome then
    { s with
      old_infos := popInfo s.old_infos info.key
      new_infos := s.new_infos ++ [(info.key, info)] }
  else
    { s with
      new_infos := s.new_infos ++ [(info.key, info)]
      add_entities := s.add_entities ++ [info] }

/-- `async_list_entities`: reconciles the stored info map of a platform
against a freshly listed `infos`. Returns the final loop state (whose
`new_infos` becomes the stored `entry_data.info[component_key]` and whose
`add_entities` are the newly constructed entities) together with the keys
of the entities removed (the values left in the popped-down old dict). -/
def async_list_entities (oldInfos : List (Nat × EntityInfo)) (infos : List EntityInfo) :
    ListEntitiesState × List Nat :=
  let final := infos.foldl listEntitiesStep ⟨oldInfos, [], []⟩
  (final, final.old_infos.map Prod.fst)

/-! ### C2 and C5: `on_disconnect` -/

/-- The set comprehension of `on_disconnect` building the stale set: one
pair `(type(entity_state), key)` for every entry of every per-type state
dict in `entry_data.state`. -/
def computeStale (state : List (Nat × List (Nat × EntityState))) : List (Nat × Nat) :=
  state.foldr (fun bucket acc => bucket.2.map (fun p => (p.2.stype, p.1)) ++ acc) []

/-- The observable outcome of running `on_disconnect`: the updated entry
data, the identifiers of the disconnect callbacks that were invoked, and
whether `async_update_device_state` was called. -/
structure DisconnectResult where
  entry_data : EntryData
  callbacks_run : List Nat
  device_state_updated : Bool
deriving DecidableEq

/-- `on_disconnect`: runs every registered disconnect callback, clears the
callback list, flips `available` to false and recomputes `stale_state`
from the cached state; the host-visible device state update alone is
guarded by `if not hass.is_stopping`. -/
def on_disconnect (hassIsStopping : Bool) (d : EntryData) : DisconnectResult :=
  { entry_data :=
      { d with
        disconnect_callbacks := []
        available := false
        stale_state := computeStale d.state }
    callbacks_run := d.disconnect_callbacks
    device_state_updated := !hassIsStopping }

/-- The state cache is well formed when every state object sits in the
dict of its own runtime type under its own key; this is how
`async_update_state` writes the cache (`state[type(state)][state.key]`). -/
def WellFormedState (state : List (Nat × List (Nat × EntityState))) : Prop :=
  ∀ b ∈ state, ∀ p ∈ b.2, p.2.stype = b.1 ∧ p.2.key = p.1

/-! ### C4 and C7: `_register_service` and `_setup_services` -/

/-- The known service-argument types: the keys of `ARG_TYPE_METADATA`
(`UserServiceArgType.BOOL` through `STRING_ARRAY`, wire values 0-7);
any other wire value has no metadata entry. The metadata content
(validator, example, selector) is irrelevant to the verified control
flow, so the table is modelled by its key set. -/
def ARG_TYPE_METADATA_hasKey (argType : Nat) : Bool :=
  argType < 8

/-- `device_info.name.replace("-", "_")`: the single-character Python
replacement, embedded as a character map so that it evaluates. -/
def replaceDashUnderscore (s : String) : String :=
  String.mk (s.data.map (fun ch => if ch = '-' then '_' else ch))

/-- The host-facing service name used by `_register_service`:
the device name with dashes replaced by underscores, an underscore, and
the service name. -/
def serviceRegisterName (deviceName : String) (s : UserService) : String :=
  replaceDashUnderscore deviceName ++ "_" ++ s.name

/-- The host-facing service name `_setup_services` uses when removing a
service: the raw device name (no dash replacement), an underscore, and
the service name. -/
def serviceRemoveName (deviceName : String) (s : UserService) : String :=
  deviceName ++ "_" ++ s.name

/-- The outcome of one `_register_service` call: either the registration
is skipped because some argument has an unknown type (only an error log
is emitted, no service and no fields are registered), or the service is
registered under the given name with one field per argument. -/
inductive RegisterResult where
  | skippedUnknownArg (serviceName : String) (argName : String)
  | registered (serviceName : String) (fields : List String)
deriving DecidableEq

/-- `_register_service` for a device with fetched device info: walks the
arguments; the first argument whose type is not in `ARG_TYPE_METADATA`
aborts the registration with an error log, otherwise the service is
registered under `serviceRegisterName` with a field per argument. -/
def _register_service (deviceName : String) (s : UserService) : RegisterResult :=
  let service_name := serviceRegisterName deviceName s
  match s.args.find? (fun a => !ARG_TYPE_METADATA_hasKey a.type) with
  | some a => .skippedUnknownArg service_name a.name
  | none => .registered service_name (s.args.map (fun a => a.name))

/-- Lookup in the old services dict of `_setup_services`. -/
def lookupService (l : List (Nat × UserService)) (k : Nat) : Option UserService :=
  (l.find? (fun p => p.1 == k)).map Prod.snd

/-- `dict.pop(key)` on the old services dict. -/
def popService (l : List (Nat × UserService)) (k : Nat) : List (Nat × UserService) :=
  l.eraseP (fun p => p.1 == k)

/-- The loop state of `_setup_services`: the popped-down old services
dict and the accumulated `to_unregister` / `to_register` lists. -/
structure SetupServicesState where
  old_services : List (Nat × UserService)
  to_unregister : List UserService
  to_register : List UserService
deriving DecidableEq

/-- One iteration of the `for service in services` loop of
`_setup_services`: a retained key is popped from the old dict, and when
its descriptor changed the old service is queued for removal and the new
one for registration; a new key is queued for registration. -/
def setupServicesStep (st : SetupServicesState) (s : UserService) : SetupServicesState :=
  match lookupService st.old_services s.key with
  | some matching =>
    if matching ≠ s then
      { old_services := popService st.old_services s.key
        to_unregister := st.to_unregister ++ [matching]
        to_register := st.to_register ++ [s] }
    else
      { st with old_services := popService st.old_services s.key }
  | none => { st with to_register := st.to_register ++ [s] }

/-- The observable outcome of `_setup_services`: the stored services map,
the host-facing names passed to `hass.services.async_remove`, and for
each service passed to `_register_service` the result of that call. -/
structure SetupServicesResult where
  services : List (Nat × UserService)
  removedNames : List String
  registerResults : List (UserService × RegisterResult)
deriving DecidableEq

/-- `_setup_services`: with no fetched device info the function returns
immediately; otherwise it diffs the new listing against the stored
services map, stores the new listing keyed by service key, removes every
disappeared or changed service under `serviceRemoveName`, and calls
`_register_service` for every new or changed service. -/
def _setup_services (deviceInfo : Option DeviceInfo)
    (oldServices : List (Nat × UserService)) (services : List UserService) :
    Option SetupServicesResult :=
  match deviceInfo with
  | none => none
  | some di =>
    let st := services.foldl setupServicesStep ⟨oldServices, [], []⟩
    let to_unregister := st.to_unregister ++ st.old_services.map Prod.snd
    some
      { services := services.map (fun s => (s.key, s))
        removedNames := to_unregister.map (serviceRemoveName di.name)
        registerResults := st.to_register.map (fun s => (s, _register_service di.name s)) }

/-! ### C9: state fan-out and entity construction -/

/-- Lookup of the cached state of one (state-type, key) pair in the
nested state dict. -/
def lookupState (state : List (Nat × List (Nat × EntityState))) (t k : Nat) :
    Option EntityState :=
  match (state.find? (fun b => b.1 == t)).map Prod.snd with
  | none => none
  | some dict => (dict.find? (fun p => p.1 == k)).map Prod.snd

/-- `state[type(st)][st.key] = st` on the nested state dict: replaces the
entry in the bucket of the state type, adding the bucket or the entry
when absent. -/
def insertState (state : List (Nat × List (Nat × EntityState))) (st : EntityState) :
    List (Nat × List (Nat × EntityState)) :=
  match state with
  | [] => [(st.stype, [(st.key, st)])]
  | b :: rest =>
    if b.1 == st.stype then
      (b.1, (st.key, st) :: b.2.eraseP (fun p => p.1 == st.key)) :: rest
    else
      b :: insertState rest st

/-- Modelled from the spec: `RuntimeEntryData.async_update_state` lives in
`entry_data.py`, which is not part of the given sources. Following the
spec, an incoming state payload is dropped as a duplicate when an equal
value is cached and its (state-kind, key) pair is not stale; otherwise
the pair is removed from the stale set, the cache is updated at
`(type(state), state.key)`, and exactly the subscribers of that pair are
notified. `subs` is the subscription table pair -> entity identifier;
the result is the updated entry data and the notified entities. -/
def async_update_state (d : EntryData) (subs : List ((Nat × Nat) × Nat))
    (st : EntityState) : EntryData × List Nat :=
  let pair := (st.stype, st.key)
  if lookupState d.state st.stype st.key = some st ∧ pair ∉ d.stale_state then
    (d, [])
  else
    ({ d with
        state := insertState d.state st
        stale_state := d.stale_state.filter (fun q => q ≠ pair) },
      (subs.filter (fun sub => sub.1 = pair)).map Prod.snd)

/-- The fields of an `EsphomeEntity` object relevant to state pickup:
its entity key, its state type, and the `_state` / `_has_state` pair
(`_state` is unassigned until a cached state is first seen). -/
structure EsphomeEntityObj where
  key : Nat
  state_type : Nat
  entity_state : Option EntityState
  has_state : Bool
deriving DecidableEq

/-- `EsphomeEntity._update_state_from_entry_data`: reads the cached state
of the entity's own (state-type, key) pair; when present it is stored
and `_has_state` is set, otherwise only `_has_state` is cleared (the
previously stored `_state` object is not erased). -/
def update_state_from_entry_data (e : EsphomeEntityObj) (d : EntryData) :
    EsphomeEntityObj :=
  match lookupState d.state e.state_type e.key with
  | some s => { e with entity_state := some s, has_state := true }
  | none => { e with has_state := false }

/-- The effect of `EsphomeEntity.async_added_to_hass` on the subscription
table and the entity object: the entity subscribes to state updates of
its exact (state-type, key) pair and then reads the current cached state
via `_update_state_from_entry_data`. -/
def async_added_to_hass (e : EsphomeEntityObj) (eid : Nat) (d : EntryData)
    (subs : List ((Nat × Nat) × Nat)) :
    EsphomeEntityObj × List ((Nat × Nat) × Nat) :=
  (update_state_from_entry_data e d, subs ++ [((e.state_type, e.key), eid)])

/-! ### C10: `async_on_service_call` -/

/-- A device-originated service-call packet
(`aioesphomeapi.HomeassistantServiceCall`), with `service` the
dot-separated target, `data` the literal payload, `data_template` the
template payload and `is_event` the event marker. Template sources and
variables are abstracted away: the rendering itself is external. -/
structure ServiceCallMsg where
  service : String
  data : List (String × String)
  data_template : List (String × String)
  is_event : Bool
deriving DecidableEq

/-- The observable action `async_on_service_call` performs for one
packet: abort on a template rendering error, drop (with an error log) an
event packet outside the esphome domain, start a native tag scan, fire
an event on the host bus, or invoke a host service. -/
inductive ServiceCallAction where
  | templateError
  | nonEsphomeEventDropped (domain : String)
  | tagScanned (tagId : String)
  | eventFired (eventName : String) (deviceId : Option String)
  | serviceInvoked (domain : String) (serviceName : String)
deriving DecidableEq

/-- Splits a character list at the first dot: the part before it and the
whole rest; `none` when there is no dot. -/
def splitDotOnce : List Char → Option (List Char × List Char)
  | [] => none
  | c :: rest =>
    if c = '.' then
      some ([], rest)
    else
      match splitDotOnce rest with
      | none => none
      | some (d, r) => some (c :: d, r)

/-- `service.split(".", 1)`: the part before the first dot and the rest;
`none` models the `ValueError` Python raises when there is no dot. -/
def splitServiceOnce (s : String) : Option (String × String) :=
  (splitDotOnce s.data).map (fun p => (String.mk p.1, String.mk p.2))

/-- Lookup in the rendered service data (`service_data["tag_id"]`);
`none` models the `KeyError` on a missing key. -/
def lookupData (data : List (String × String)) (k : String) : Option String :=
  (data.find? (fun p => p.1 == k)).map Prod.snd

/-- `async_on_service_call`: splits the service target into domain and
name, renders the data template when one is present (`renderOk` and
`rendered` abstract the external template engine), then fires events
only inside the esphome domain (with the native tag-scan special case)
and otherwise invokes the host service. `none` models an uncaught
exception. -/
def async_on_service_call (renderOk : Bool) (rendered : List (String × String))
    (deviceId : Option String) (c : ServiceCallMsg) : Option ServiceCallAction :=
  match splitServiceOnce c.service with
  | none => none
  | some (domain, service_name) =>
    if c.data_template ≠ [] ∧ renderOk = false then
      some .templateError
    else
      let service_data :=
        if c.data_template ≠ [] then rendered ++ c.data else c.data
      if c.is_event then
        if domain ≠ "esphome" then
          some (.nonEsphomeEventDropped domain)
        else if service_name = "tag_scanned" ∧ deviceId ≠ none then
          match lookupData service_data "tag_id" with
          | none => none
          | some tid => some (.tagScanned tid)
        else
          some (.eventFired c.service deviceId)
      else
        some (.serviceInvoked domain service_name)

/-! ### Association-list helper lemmas -/

theorem lookupInfo_eq_none {l : List (Nat × EntityInfo)} {k : Nat} :
    lookupInfo l k = none ↔ ∀ p ∈ l, ¬(p.1 == k) := by
  simp [lookupInfo, List.find?_eq_none]

theorem lookupInfo_popInfo_ne {l : List (Nat × EntityInfo)} {k k' : Nat} (h : k' ≠ k) :
    lookupInfo (popInfo l k) k' = lookupInfo l k' := by
  induction l with
  | nil => rfl
  | cons a t ih =>
    by_cases ha : (a.1 == k)
    · have ha' : ¬(a.1 == k') := by
        simp only [beq_iff_eq] at ha ⊢
        omega
      simp [popInfo, List.eraseP_cons, ha, lookupInfo, List.find?_cons, ha']
    · by_cases hb : (a.1 == k')
      · simp [popInfo, List.eraseP_cons, ha, lookupInfo, List.find?_cons, hb]
      · have := ih
        simp only [popInfo, lookupInfo] at this ⊢
        simp [List.eraseP_cons, ha, List.find?_cons, hb, this]

theorem popInfo_eq_filter {l : List (Nat × EntityInfo)} (h : (l.map Prod.fst).Nodup)
    (k : Nat) : popInfo l k = l.filter (fun p => !(p.1 == k)) := by
  induction l with
  | nil => rfl
  | cons a t ih =>
    rw [List.map_cons, List.nodup_cons] at h
    by_cases ha : (a.1 == k)
    · have hk : a.1 = k := by simpa using ha
      have ht : t.filter (fun p => !(p.1 == k)) = t := by
        apply List.filter_eq_self.mpr
        intro p hp
        have : p.1 ≠ k := by
          intro hpk
          exact h.1 (by simpa [hpk, ← hk] using List.mem_map_of_mem Prod.fst hp)
        simpa using this
      simp [popInfo, List.eraseP_cons, ha, List.filter_cons, ht]
    · have := ih h.2
      simp only [popInfo] at this
      simp [popInfo, List.eraseP_cons, ha, List.filter_cons, this]

theorem nodup_popInfo {l : List (Nat × EntityInfo)} (h : (l.map Prod.fst).Nodup)
    (k : Nat) : ((popInfo l k).map Prod.fst).Nodup :=
  h.sublist ((List.eraseP_sublist l).map Prod.fst)

/-- The `for info in infos` loop of `async_list_entities`, run from an
arbitrary loop state, described in closed form: matched old entries are
popped, every listed info lands in `new_infos`, and an entity object is
constructed exactly for the keys absent from the old dict. -/
theorem listEntities_loop (infos : List EntityInfo) (oldRem newAcc : List (Nat × EntityInfo))
    (addAcc : List EntityInfo)
    (h1 : (infos.map EntityInfo.key).Nodup) (h2 : (oldRem.map Prod.fst).Nodup) :
    infos.foldl listEntitiesStep ⟨oldRem, newAcc, addAcc⟩ =
      ⟨oldRem.filter (fun p => !(infos.any (fun i => p.1 == i.key))),
       newAcc ++ infos.map (fun i => (i.key, i)),
       addAcc ++ infos.filter (fun i => (lookupInfo oldRem i.key).isNone)⟩ := by
  induction infos generalizing oldRem newAcc addAcc with
  | nil => simp
  | cons i rest ih =>
    rw [List.map_cons, List.nodup_cons] at h1
    rw [List.foldl_cons]
    by_cases hlk : (lookupInfo oldRem i.key).isSome
    · rw [show listEntitiesStep ⟨oldRem, newAcc, addAcc⟩ i =
          ⟨popInfo oldRem i.key, newAcc ++ [(i.key, i)], addAcc⟩ by
        simp [listEntitiesStep, hlk]]
      rw [ih (popInfo oldRem i.key) (newAcc ++ [(i.key, i)]) addAcc h1.2 (nodup_popInfo h2 i.key)]
      simp only [ListEntitiesState.mk.injEq]
      refine ⟨?_, by simp, ?_⟩
      · rw [popInfo_eq_filter h2, List.filter_filter]
        apply List.filter_congr
        intro p _
        simp [Bool.and_comm]
      · have hfc : rest.filter (fun j => (lookupInfo (popInfo oldRem i.key) j.key).isNone) =
            rest.filter (fun j => (lookupInfo oldRem j.key).isNone) := by
          apply List.filter_congr
          intro j hj
          have hne : j.key ≠ i.key := by
            intro hEq
            exact h1.1 (hEq ▸ List.mem_map_of_mem EntityInfo.key hj)
          rw [lookupInfo_popInfo_ne hne]
        have hskip : (i :: rest).filter (fun j => (lookupInfo oldRem j.key).isNone) =
            rest.filter (fun j => (lookupInfo oldRem j.key).isNone) := by
          rw [List.filter_cons]
          simp [Option.isNone_iff_eq_none, Option.isSome_iff_ne_none.mp hlk]
        rw [hfc, hskip]
    · rw [show listEntitiesStep ⟨oldRem, newAcc, addAcc⟩ i =
          ⟨oldRem, newAcc ++ [(i.key, i)], addAcc ++ [i]⟩ by
        simp [listEntitiesStep, hlk]]
      rw [ih oldRem (newAcc ++ [(i.key, i)]) (addAcc ++ [i]) h1.2 h2]
      have hnone : lookupInfo oldRem i.key = none := by
        cases hcase : lookupInfo oldRem i.key with
        | none => rfl
        | some v => exact absurd (by simp [hcase]) hlk
      simp only [ListEntitiesState.mk.injEq]
      refine ⟨?_, by simp, ?_⟩
      · apply List.filter_congr
        intro p hp
        have : ¬(p.1 == i.key) := (lookupInfo_eq_none.mp hnone) p hp
        simp at this
        simp [this]
      · rw [List.filter_cons]
        simp [hnone]

/-! ### Theorems -/

/-- C1: for an old snapshot with distinct keys and a new listing with
pairwise distinct keys, `async_list_entities` constructs exactly one new
entity object per listed info whose key is absent from the old snapshot
(and none for a key present in both), removes exactly the old entries
whose key is absent from the new listing, and stores the new listing
keyed by entity key as the info map of the component. -/
theorem esphome_C1_list_entities_reconcile (oldInfos : List (Nat × EntityInfo))
    (infos : List EntityInfo)
    (h1 : (infos.map EntityInfo.key).Nodup) (h2 : (oldInfos.map Prod.fst).Nodup) :
    (async_list_entities oldInfos infos).1.add_entities =
        infos.filter (fun i => (lookupInfo oldInfos i.key).isNone) ∧
      (async_list_entities oldInfos infos).2 =
        (oldInfos.filter (fun p => !(infos.any (fun i => p.1 == i.key)))).map Prod.fst ∧
      (async_list_entities oldInfos infos).1.new_infos =
        infos.map (fun i => (i.key, i)) := by
  unfold async_list_entities
  rw [listEntities_loop infos oldInfos [] [] h1 h2]
  simp

/-- The C1 theorem applied at a concrete reconciliation: old snapshot with
keys 1 and 2, new listing with keys 2 (changed descriptor) and 3; one
entity is created (key 3), one removed (key 1), none recreated for key 2,
and the stored map is the new listing. -/
theorem esphome_C1_list_entities_reconcile_witness :
    (async_list_entities [(1, ⟨1, "a", 0⟩), (2, ⟨2, "b", 0⟩)]
        [⟨2, "b2", 1⟩, ⟨3, "c", 0⟩]).1.add_entities = [⟨3, "c", 0⟩] ∧
      (async_list_entities [(1, ⟨1, "a", 0⟩), (2, ⟨2, "b", 0⟩)]
        [⟨2, "b2", 1⟩, ⟨3, "c", 0⟩]).2 = [1] ∧
      (async_list_entities [(1, ⟨1, "a", 0⟩), (2, ⟨2, "b", 0⟩)]
        [⟨2, "b2", 1⟩, ⟨3, "c", 0⟩]).1.new_infos =
          [(2, ⟨2, "b2", 1⟩), (3, ⟨3, "c", 0⟩)] := by
  have h := esphome_C1_list_entities_reconcile [(1, ⟨1, "a", 0⟩), (2, ⟨2, "b", 0⟩)]
    [⟨2, "b2", 1⟩, ⟨3, "c", 0⟩] (by decide) (by decide)
  exact ⟨h.1.trans (by decide), h.2.1.trans (by decide), h.2.2.trans (by decide)⟩

/-- Membership in the stale set computed by `on_disconnect`. -/
theorem mem_computeStale {state : List (Nat × List (Nat × EntityState))} {t k : Nat} :
    (t, k) ∈ computeStale state ↔
      ∃ b ∈ state, ∃ p ∈ b.2, p.2.stype = t ∧ p.1 = k := by
  induction state with
  | nil => simp [computeStale]
  | cons b rest ih =>
    simp only [computeStale, List.foldr_cons] at ih ⊢
    simp only [List.mem_append, List.mem_map, List.mem_cons, ih, Prod.mk.injEq]
    constructor
    · rintro (⟨p, hp, h1, h2⟩ | ⟨b2, hb2, p, hp, h1, h2⟩)
      · exact ⟨b, Or.inl rfl, p, hp, h1, h2⟩
      · exact ⟨b2, Or.inr hb2, p, hp, h1, h2⟩
    · rintro ⟨b2, hb2 | hb2, p, hp, h1, h2⟩
      · exact Or.inl ⟨p, hb2 ▸ hp, h1, h2⟩
      · exact Or.inr ⟨b2, hb2, p, hp, h1, h2⟩

/-- C2: after `on_disconnect` runs, the stale set holds exactly the
(state-type, key) pairs that were present in the cached per-entity state
at disconnect time, and the per-device availability flag is false. -/
theorem esphome_C2_disconnect_marks_all_stale (stopping : Bool) (d : EntryData)
    (hwf : WellFormedState d.state) :
    (∀ t k, (t, k) ∈ (on_disconnect stopping d).entry_data.stale_state ↔
        ∃ dict, (t, dict) ∈ d.state ∧ ∃ es, (k, es) ∈ dict) ∧
      (on_disconnect stopping d).entry_data.available = false := by
  refine ⟨?_, rfl⟩
  intro t k
  show (t, k) ∈ computeStale d.state ↔ _
  rw [mem_computeStale]
  constructor
  · rintro ⟨⟨bt, bdict⟩, hb, ⟨pk, pes⟩, hp, h1, h2⟩
    obtain ⟨hst, -⟩ := hwf (bt, bdict) hb (pk, pes) hp
    simp only at hst h1 h2
    subst h2
    refine ⟨bdict, ?_, pes, hp⟩
    rw [← h1, hst]
    exact hb
  · rintro ⟨dict, hdict, es, hes⟩
    obtain ⟨hst, -⟩ := hwf (t, dict) hdict (k, es) hes
    exact ⟨(t, dict), hdict, (k, es), hes, hst, rfl⟩

/-- The C2 theorem applied to a concrete entry data holding one cached
state of type 1 under key 7 and one disconnect callback. -/
theorem esphome_C2_disconnect_marks_all_stale_witness :
    ((1, 7) ∈
        (on_disconnect false
          ⟨[5], true, [], [(1, [(7, ⟨1, 7, 3⟩)])], []⟩).entry_data.stale_state ↔
      ∃ dict, (1, dict) ∈ [(1, [(7, (⟨1, 7, 3⟩ : EntityState))])] ∧
        ∃ es, (7, es) ∈ dict) ∧
      (on_disconnect false
        ⟨[5], true, [], [(1, [(7, ⟨1, 7, 3⟩)])], []⟩).entry_data.available = false := by
  have h := esphome_C2_disconnect_marks_all_stale false
    ⟨[5], true, [], [(1, [(7, ⟨1, 7, 3⟩)])], []⟩ (by unfold WellFormedState; decide)
  exact ⟨h.1 1 7, h.2⟩

/-- C5 counterexample: during host shutdown (`hass.is_stopping` true) the
disconnect handler still runs the registered callbacks, still flips the
availability flag to false and still replaces the stale set; the claim
that all of this is skipped fails on this concrete entry data. -/
theorem esphome_C5_shutdown_counterexample :
    ¬ ((on_disconnect true
          ⟨[7], true, [], [(1, [(5, ⟨1, 5, 42⟩)])], []⟩).callbacks_run = [] ∧
        (on_disconnect true
          ⟨[7], true, [], [(1, [(5, ⟨1, 5, 42⟩)])], []⟩).entry_data.available = true ∧
        (on_disconnect true
          ⟨[7], true, [], [(1, [(5, ⟨1, 5, 42⟩)])], []⟩).entry_data.stale_state = []) := by
  decide

/-- C5 amended: on every disconnect event the registered callbacks are
all run and cleared, the availability flag is set to false and the stale
set is recomputed from the cached state, independently of whether the
host is shutting down; only the host-visible device state update is
skipped during shutdown. -/
theorem esphome_C5_disconnect_shutdown_frame (stopping : Bool) (d : EntryData) :
    (on_disconnect stopping d).callbacks_run = d.disconnect_callbacks ∧
      (on_disconnect stopping d).entry_data.available = false ∧
      (on_disconnect stopping d).entry_data.disconnect_callbacks = [] ∧
      (on_disconnect stopping d).entry_data = (on_disconnect false d).entry_data ∧
      (on_disconnect stopping d).callbacks_run = (on_disconnect false d).callbacks_run ∧
      (on_disconnect stopping d).device_state_updated = !stopping := by
  simp [on_disconnect]

/-- The `_setup_services` loop started on an empty old services dict
queues every listed service for registration and nothing for removal. -/
theorem setupServices_loop_nil (services accU accR : List UserService) :
    services.foldl setupServicesStep ⟨[], accU, accR⟩ = ⟨[], accU, accR ++ services⟩ := by
  induction services generalizing accR with
  | nil => simp
  | cons s rest ih =>
    rw [List.foldl_cons]
    have hstep : setupServicesStep ⟨[], accU, accR⟩ s = ⟨[], accU, accR ++ [s]⟩ := rfl
    rw [hstep, ih]
    simp

/-- `_setup_services` on an empty old services dict in closed form. -/
theorem setup_services_nil_old (di : DeviceInfo) (services : List UserService) :
    _setup_services (some di) [] services =
      some ⟨services.map (fun s => (s.key, s)), [],
        services.map (fun s => (s, _register_service di.name s))⟩ := by
  unfold _setup_services
  rw [setupServices_loop_nil services [] []]
  simp

/-- C4 (code bug): `_register_service` registers a service of device
`my-device` under the dash-replaced name `my_device_svc`, but
`_setup_services` removes the same disappeared service under the raw
name `my-device_svc`, a name it was never registered with. -/
theorem esphome_C4_unregister_name_mismatch :
    _register_service "my-device" ⟨"svc", 1, []⟩ =
        RegisterResult.registered "my_device_svc" [] ∧
      _setup_services (some ⟨"my-device", "aa:bb", false⟩)
          [(1, ⟨"svc", 1, []⟩)] [] =
        some ⟨[], ["my-device_svc"], []⟩ ∧
      serviceRemoveName "my-device" ⟨"svc", 1, []⟩ ≠
        serviceRegisterName "my-device" ⟨"svc", 1, []⟩ := by
  refine ⟨by decide, by decide, by decide⟩

/-- C7: in a listing set up from scratch, a service with an argument of
unknown type is skipped (only an error log, no registration and no
fields), while every other service of the listing whose argument types
are all known is registered with one field per argument. -/
theorem esphome_C7_unknown_arg_skips_only_that_service (di : DeviceInfo)
    (services : List UserService) (s : UserService) (res : SetupServicesResult)
    (hs : s ∈ services) (hres : _setup_services (some di) [] services = some res) :
    ((∃ a ∈ s.args, ARG_TYPE_METADATA_hasKey a.type = false) →
        (∃ argName, (s, RegisterResult.skippedUnknownArg
            (serviceRegisterName di.name s) argName) ∈ res.registerResults) ∧
          ∀ svcName fields,
            (s, RegisterResult.registered svcName fields) ∉ res.registerResults) ∧
      ((∀ a ∈ s.args, ARG_TYPE_METADATA_hasKey a.type = true) →
        (s, RegisterResult.registered (serviceRegisterName di.name s)
          (s.args.map (fun a => a.name))) ∈ res.registerResults) ∧
      (∀ (oldServices : List (Nat × UserService)) (res2 : SetupServicesResult),
        _setup_services (some di) oldServices services = some res2 →
          ∀ svcName fields,
            (s, RegisterResult.registered svcName fields) ∈ res2.registerResults →
              ∀ a ∈ s.args, ARG_TYPE_METADATA_hasKey a.type = true) := by
  have hgen : ∀ (oldServices : List (Nat × UserService)) (res2 : SetupServicesResult),
      _setup_services (some di) oldServices services = some res2 →
        ∀ svcName fields,
          (s, RegisterResult.registered svcName fields) ∈ res2.registerResults →
            ∀ a ∈ s.args, ARG_TYPE_METADATA_hasKey a.type = true := by
    intro oldServices res2 hres2 svcName fields hmem a ha
    unfold _setup_services at hres2
    obtain rfl : _ = res2 := (Option.some.injEq _ _).mp hres2
    obtain ⟨s2, -, heq⟩ := List.mem_map.mp hmem
    obtain ⟨hs2eq, heq2⟩ := Prod.mk.injEq .. ▸ heq
    rw [hs2eq] at heq2
    by_contra hbad
    have hfind : (s.args.find? (fun a => !ARG_TYPE_METADATA_hasKey a.type)).isSome := by
      rw [List.find?_isSome]
      refine ⟨a, ha, ?_⟩
      simp [Bool.not_eq_true] at hbad ⊢
      exact hbad
    obtain ⟨a0, hfind0⟩ := Option.isSome_iff_exists.mp hfind
    unfold _register_service at heq2
    rw [hfind0] at heq2
    cases heq2
  rw [setup_services_nil_old] at hres
  obtain rfl : _ = res := (Option.some.injEq _ _).mp hres
  refine ⟨?_, ?_, ?_⟩
  · intro hbad
    obtain ⟨a, ha, hk⟩ := hbad
    have hfind : (s.args.find? (fun a => !ARG_TYPE_METADATA_hasKey a.type)).isSome := by
      rw [List.find?_isSome]
      exact ⟨a, ha, by simp [hk]⟩
    obtain ⟨a0, hfind0⟩ := Option.isSome_iff_exists.mp hfind
    have hreg : _register_service di.name s =
        RegisterResult.skippedUnknownArg (serviceRegisterName di.name s) a0.name := by
      unfold _register_service
      rw [hfind0]
    constructor
    · exact ⟨a0.name, List.mem_map.mpr ⟨s, hs, by rw [hreg]⟩⟩
    · intro svcName fields hmem
      obtain ⟨s2, hs2, heq⟩ := List.mem_map.mp hmem
      obtain ⟨rfl, heq2⟩ := Prod.mk.injEq .. ▸ heq
      rw [hreg] at heq2
      cases heq2
  · intro hgood
    have hfind : s.args.find? (fun a => !ARG_TYPE_METADATA_hasKey a.type) = none := by
      rw [List.find?_eq_none]
      intro a ha
      simp [hgood a ha]
    have hreg : _register_service di.name s =
        RegisterResult.registered (serviceRegisterName di.name s)
          (s.args.map (fun a => a.name)) := by
      unfold _register_service
      rw [hfind]
    exact List.mem_map.mpr ⟨s, hs, by rw [hreg]⟩
  · exact hgen

/-- The C7 theorem applied to a concrete listing of two services on
device `dev`: service `b` has an argument of unknown type 99 and is
skipped, service `g` has a known argument type and is registered. -/
theorem esphome_C7_unknown_arg_witness :
    ((∃ argName, ((⟨"b", 1, [⟨"x", 99⟩]⟩ : UserService),
        RegisterResult.skippedUnknownArg
          (serviceRegisterName "dev" ⟨"b", 1, [⟨"x", 99⟩]⟩) argName) ∈
        [((⟨"b", 1, [⟨"x", 99⟩]⟩ : UserService),
            RegisterResult.skippedUnknownArg "dev_b" "x"),
          ((⟨"g", 2, [⟨"y", 0⟩]⟩ : UserService),
            RegisterResult.registered "dev_g" ["y"])]) ∧
      ∀ svcName fields, ((⟨"b", 1, [⟨"x", 99⟩]⟩ : UserService),
          RegisterResult.registered svcName fields) ∉
        [((⟨"b", 1, [⟨"x", 99⟩]⟩ : UserService),
            RegisterResult.skippedUnknownArg "dev_b" "x"),
          ((⟨"g", 2, [⟨"y", 0⟩]⟩ : UserService),
            RegisterResult.registered "dev_g" ["y"])]) ∧
      ((⟨"g", 2, [⟨"y", 0⟩]⟩ : UserService),
        RegisterResult.registered (serviceRegisterName "dev" ⟨"g", 2, [⟨"y", 0⟩]⟩)
          (([⟨"y", 0⟩] : List UserServiceArg).map (fun a => a.name))) ∈
        [((⟨"b", 1, [⟨"x", 99⟩]⟩ : UserService),
            RegisterResult.skippedUnknownArg "dev_b" "x"),
          ((⟨"g", 2, [⟨"y", 0⟩]⟩ : UserService),
            RegisterResult.registered "dev_g" ["y"])] := by
  have hb := esphome_C7_unknown_arg_skips_only_that_service ⟨"dev", "m", false⟩
    [⟨"b", 1, [⟨"x", 99⟩]⟩, ⟨"g", 2, [⟨"y", 0⟩]⟩] ⟨"b", 1, [⟨"x", 99⟩]⟩
    ⟨[(1, ⟨"b", 1, [⟨"x", 99⟩]⟩), (2, ⟨"g", 2, [⟨"y", 0⟩]⟩)], [],
      [(⟨"b", 1, [⟨"x", 99⟩]⟩, RegisterResult.skippedUnknownArg "dev_b" "x"),
        (⟨"g", 2, [⟨"y", 0⟩]⟩, RegisterResult.registered "dev_g" ["y"])]⟩
    (by decide) (by decide)
  have hg := esphome_C7_unknown_arg_skips_only_that_service ⟨"dev", "m", false⟩
    [⟨"b", 1, [⟨"x", 99⟩]⟩, ⟨"g", 2, [⟨"y", 0⟩]⟩] ⟨"g", 2, [⟨"y", 0⟩]⟩
    ⟨[(1, ⟨"b", 1, [⟨"x", 99⟩]⟩), (2, ⟨"g", 2, [⟨"y", 0⟩]⟩)], [],
      [(⟨"b", 1, [⟨"x", 99⟩]⟩, RegisterResult.skippedUnknownArg "dev_b" "x"),
        (⟨"g", 2, [⟨"y", 0⟩]⟩, RegisterResult.registered "dev_g" ["y"])]⟩
    (by decide) (by decide)
  exact ⟨hb.1 (by decide), hg.2.1 (by decide)⟩

/-- After `state[type(st)][st.key] = st`, looking up the pair of the
written state returns that state. -/
theorem lookupState_insertState (state : List (Nat × List (Nat × EntityState)))
    (st : EntityState) :
    lookupState (insertState state st) st.stype st.key = some st := by
  induction state with
  | nil => simp [insertState, lookupState]
  | cons b rest ih =>
    by_cases hb : (b.1 == st.stype)
    · simp [insertState, hb, lookupState, List.find?_cons]
    · simp only [insertState, hb, if_false, Bool.false_eq_true]
      simp only [lookupState, List.find?_cons, hb] at ih ⊢
      exact ih

/-- C9: an incoming state payload notifies only entities subscribed to
its exact (state-type, key) pair; with no subscriber for the pair the
update is silently dropped while the cache still ends up holding the
payload; and an entity added to the host afterwards picks up the cached
state of its own pair, or no state when nothing is cached for it. -/
theorem esphome_C9_state_fanout (d : EntryData) (subs : List ((Nat × Nat) × Nat))
    (st : EntityState) :
    (∀ eid, eid ∈ (async_update_state d subs st).2 →
        ((st.stype, st.key), eid) ∈ subs) ∧
      ((∀ sub ∈ subs, sub.1 ≠ (st.stype, st.key)) →
        (async_update_state d subs st).2 = [] ∧
          lookupState (async_update_state d subs st).1.state st.stype st.key = some st) ∧
      (∀ e eid, e.state_type = st.stype → e.key = st.key →
        (async_added_to_hass e eid (async_update_state d subs st).1 subs).1.has_state
            = true ∧
          (async_added_to_hass e eid (async_update_state d subs st).1 subs).1.entity_state
            = some st) ∧
      (∀ e eid (d2 : EntryData) subs2,
        lookupState d2.state e.state_type e.key = none →
          (async_added_to_hass e eid d2 subs2).1.has_state = false) := by
  have hcache : lookupState (async_update_state d subs st).1.state st.stype st.key
      = some st := by
    unfold async_update_state
    by_cases hdup : lookupState d.state st.stype st.key = some st ∧
        (st.stype, st.key) ∉ d.stale_state
    · simp only [if_pos hdup]
      exact hdup.1
    · simp only [if_neg hdup]
      exact lookupState_insertState d.state st
  refine ⟨?_, ?_, ?_, ?_⟩
  · intro eid hmem
    unfold async_update_state at hmem
    by_cases hdup : lookupState d.state st.stype st.key = some st ∧
        (st.stype, st.key) ∉ d.stale_state
    · simp [if_pos hdup] at hmem
    · simp only [if_neg hdup] at hmem
      obtain ⟨sub, hsub, hsnd⟩ := List.mem_map.mp hmem
      obtain ⟨hsubs, hfst⟩ := List.mem_filter.mp hsub
      have h1 : sub.1 = (st.stype, st.key) := by simpa using hfst
      have : sub = ((st.stype, st.key), eid) := Prod.ext h1 hsnd
      exact this ▸ hsubs
  · intro hnone
    refine ⟨?_, hcache⟩
    unfold async_update_state
    by_cases hdup : lookupState d.state st.stype st.key = some st ∧
        (st.stype, st.key) ∉ d.stale_state
    · simp [if_pos hdup]
    · simp only [if_neg hdup]
      have : subs.filter (fun sub => sub.1 = (st.stype, st.key)) = [] := by
        rw [List.filter_eq_nil_iff]
        intro sub hsub
        simpa using hnone sub hsub
      rw [this]
      rfl
  · intro e eid het hek
    unfold async_added_to_hass update_state_from_entry_data
    rw [het, hek, hcache]
    exact ⟨rfl, rfl⟩
  · intro e eid d2 subs2 hnone
    unfold async_added_to_hass update_state_from_entry_data
    rw [hnone]

/-- The C9 theorem applied to a concrete payload of type 1 and key 7
arriving into an empty cache with no subscribers, and a matching entity
added afterwards. -/
theorem esphome_C9_state_fanout_witness :
    (async_update_state ⟨[], true, [], [], []⟩ [] ⟨1, 7, 5⟩).2 = [] ∧
      lookupState (async_update_state ⟨[], true, [], [], []⟩ [] ⟨1, 7, 5⟩).1.state 1 7
        = some ⟨1, 7, 5⟩ ∧
      (async_added_to_hass ⟨7, 1, none, false⟩ 3
          (async_update_state ⟨[], true, [], [], []⟩ [] ⟨1, 7, 5⟩).1 []).1.has_state
        = true ∧
      (async_added_to_hass ⟨7, 1, none, false⟩ 3
        ⟨[], true, [], [], []⟩ []).1.has_state = false := by
  have h := esphome_C9_state_fanout ⟨[], true, [], [], []⟩ [] ⟨1, 7, 5⟩
  have h2 := h.2.1 (by simp)
  have h3 := h.2.2.1 ⟨7, 1, none, false⟩ 3 rfl rfl
  have h4 := h.2.2.2 ⟨7, 1, none, false⟩ 3 ⟨[], true, [], [], []⟩ [] rfl
  exact ⟨h2.1, h2.2, h3.1, h4⟩

/-- C10: for an event-marked packet, an event is fired on the host bus
only when the domain before the first dot is exactly `esphome`; for any
other domain the packet only produces a logged drop (either at template
rendering or at the domain guard), with no event fired and no host
service invoked. -/
theorem esphome_C10_event_domain_guard (renderOk : Bool)
    (rendered : List (String × String)) (deviceId : Option String)
    (c : ServiceCallMsg) (hev : c.is_event = true) :
    (∀ n dev, async_on_service_call renderOk rendered deviceId c =
        some (ServiceCallAction.eventFired n dev) →
          ∃ rest, splitServiceOnce c.service = some ("esphome", rest)) ∧
      (∀ domain sname, splitServiceOnce c.service = some (domain, sname) →
        domain ≠ "esphome" →
          async_on_service_call renderOk rendered deviceId c =
              some ServiceCallAction.templateError ∨
            async_on_service_call renderOk rendered deviceId c =
              some (ServiceCallAction.nonEsphomeEventDropped domain)) := by
  unfold async_on_service_call
  cases hsp : splitServiceOnce c.service with
  | none =>
    refine ⟨?_, ?_⟩
    · intro n dev h
      cases h
    · intro domain sname h
      cases h
  | some p =>
    obtain ⟨domain0, sname0⟩ := p
    by_cases hte : c.data_template ≠ [] ∧ renderOk = false
    · refine ⟨?_, ?_⟩
      · intro n dev h
        simp only [if_pos hte] at h
        cases h
      · intro domain sname h hdom
        left
        simp only [if_pos hte]
    · simp only [if_neg hte, hev, if_true]
      by_cases hdom0 : domain0 ≠ "esphome"
      · refine ⟨?_, ?_⟩
        · intro n dev h
          simp only [if_pos hdom0] at h
          cases h
        · intro domain sname h hdom
          right
          obtain ⟨rfl, rfl⟩ : domain0 = domain ∧ sname0 = sname :=
            Prod.mk.injEq .. ▸ (Option.some.injEq _ _).mp h
          simp only [if_pos hdom]
      · have hdom0e : domain0 = "esphome" := not_ne_iff.mp hdom0
        refine ⟨?_, ?_⟩
        · intro n dev h
          exact ⟨sname0, by rw [hdom0e]⟩
        · intro domain sname h hdom
          obtain ⟨rfl, rfl⟩ : domain0 = domain ∧ sname0 = sname :=
            Prod.mk.injEq .. ▸ (Option.some.injEq _ _).mp h
          exact absurd hdom0e hdom

/-- The C10 theorem applied to a concrete event packet targeting
`other.boom`: the handler only drops it (template error is impossible
here since no template is attached, so the domain guard fires). -/
theorem esphome_C10_event_domain_guard_witness :
    async_on_service_call true [] none ⟨"other.boom", [], [], true⟩ =
        some ServiceCallAction.templateError ∨
      async_on_service_call true [] none ⟨"other.boom", [], [], true⟩ =
        some (ServiceCallAction.nonEsphomeEventDropped "other") := by
  have h := esphome_C10_event_domain_guard true [] none ⟨"other.boom", [], [], true⟩ rfl
  exact h.2 "other" "boom" (by decide) (by decide)

/-- C3: an entity of a deep-sleep device reports available regardless of
the per-device availability flag, and an entity of any other device
reports exactly that flag: `available` is the disjunction of the
deep-sleep capability and the flag. -/
theorem esphome_C3_available_deep_sleep (device_info : DeviceInfo) (b : Bool) :
    EsphomeEntity.available device_info b = (device_info.has_deep_sleep || b) := by
  unfold EsphomeEntity.available
  cases device_info.has_deep_sleep <;> simp

/-- C6: the handler starts a re-authentication flow exactly for the three
authentication or encryption error classes, and performs no action for any
other exception. -/
theorem esphome_C6_connect_error_reauth (err : ConnectError) :
    on_connect_error err = true ↔
      (err = .requiresEncryptionAPIError ∨ err = .invalidEncryptionKeyAPIError ∨
        err = .invalidAuthAPIError) := by
  cases err <;> simp [on_connect_error]

/-- C8: after the migration step the persisted unique id is always the
formatted MAC, and an update call is issued exactly once when the stored
id differed and never when it already matched (the stored id being then
left unchanged). -/
theorem esphome_C8_unique_id_migration (format_mac : String → String)
    (entryUniqueId : Option String) (mac : String) :
    migrate_unique_id format_mac entryUniqueId mac =
      (some (format_mac mac),
        if entryUniqueId = some (format_mac mac) then 0 else 1) := by
  unfold migrate_unique_id
  by_cases h : entryUniqueId = some (format_mac mac) <;> simp [h]


end Esphome
